import Mathlib

/-!
Verification of the multi-environment resolution middleware
(`src/packages/fx-core/src/core/middleware/envLoader.ts`) of the
Teams Toolkit repository.

The TypeScript source is shallowly embedded: JavaScript objects built by
object literals with spreads become association lists in evaluation order
(later bindings win on lookup, matching JS spread/literal semantics);
`undefined`-able values become `Option`; JS falsiness of strings
(`!s` true for `undefined` and `""`) is made explicit; the external
collaborators (environment registry, UI traversal, uuid generation) become
oracle parameters, and the calls the middleware makes to the registry are
recorded in an explicit trace so that "no registry call occurs" is a
statement about the trace.
-/

namespace EnvLoader

/-- The error values that flow through this subsystem.  The code under
verification only ever constructs `NoProjectOpenedError`; the other
constructors stand for errors produced by external collaborators
(UI cancellation, registry failures) and for the spec's
`MissingNewEnvironmentName` taxonomy entry, which lets us state whether
the code ever returns that class of error. -/
inductive FxError where
  | NoProjectOpenedError : FxError
  | MissingNewEnvironmentName : FxError
  | UserCancelError : FxError
  | EnvironmentLoadFailed : String → FxError
  | OtherError : String → FxError
  deriving DecidableEq, Repr

/-- `Result<T, FxError>` from the source. -/
abbrev FxResult (α : Type) := Except FxError α

/-- `solutionSettings: { name: string, version: string }`. -/
structure SolutionSettings where
  name : String
  version : String
  deriving DecidableEq, Repr

/-- `ProjectSettings` — the fields this middleware reads or builds. -/
structure ProjectSettings where
  appName : String
  projectId : String
  solutionSettings : SolutionSettings
  deriving DecidableEq, Repr

/-- `new LocalCrypto(projectId)` — the crypto provider keyed by the
project identity.  Its encrypt/decrypt behaviour is irrelevant to the
claims; only the key it is constructed with matters. -/
structure LocalCrypto where
  projectId : String
  deriving DecidableEq, Repr

/-- The environment profile (`envInfo`) returned by
`environmentManager.loadEnvProfile`: a name and its config data
(`Map<string, PluginConfig>` modelled as an association list). -/
structure EnvInfo where
  envName : String
  data : List (String × String)
  deriving DecidableEq, Repr

/-- The subset of `Inputs` the middleware reads: `projectPath`,
`targetEnvName` and `newTargetEnvName`, each possibly `undefined`. -/
structure Inputs where
  projectPath : Option String
  targetEnvName : Option String
  newTargetEnvName : Option String
  deriving DecidableEq, Repr

/-- JS falsiness of `inputs.projectPath`: `!inputs.projectPath` is true
exactly when the field is `undefined` or the empty string. -/
def Inputs.projectPathFalsy (i : Inputs) : Bool :=
  match i.projectPath with
  | none => true
  | some s => s == ""

/-- JS falsiness of `inputs.newTargetEnvName`. -/
def Inputs.newTargetEnvNameFalsy (i : Inputs) : Bool :=
  match i.newTargetEnvName with
  | none => true
  | some s => s == ""

/-- `inputs.projectPath || ""` — JS `||` maps a falsy value to the
right operand. -/
def Inputs.projectPathOrEmpty (i : Inputs) : String :=
  match i.projectPath with
  | none => ""
  | some s => s

/-- The `CoreHookContext` fields this middleware reads:
the optionally-loaded project settings and the legacy
"project identity missing" flag. -/
structure CoreHookContext where
  projectSettings : Option ProjectSettings
  projectIdMissing : Bool
  deriving DecidableEq, Repr

/-- A value stored in one field of a dynamically assembled JS object.
Tool handles are opaque and identified by a tag string. -/
inductive FieldValue where
  | str : String → FieldValue
  | settings : ProjectSettings → FieldValue
  | configMap : List (String × String) → FieldValue
  | toolHandle : String → FieldValue
  | answers : Inputs → FieldValue
  | crypto : LocalCrypto → FieldValue
  deriving DecidableEq, Repr

/-- A JS object literal: its bindings in evaluation order.  With spreads,
a later binding for the same key overwrites an earlier one. -/
abbrev JSObject := List (String × FieldValue)

/-- Field lookup on a JS object: the LAST binding for a key wins,
which is the semantics of object literals with spreads. -/
def lookupField (o : JSObject) (k : String) : Option FieldValue :=
  (o.reverse.find? (fun p => p.1 == k)).map (·.2)

/-- The ambient `Tools` bag.  `fields` are its own enumerable fields
(logProvider, ui, telemetryReporter, tokenProvider, ...) as spread by
`...tools`; `tokenFields` are the sub-handles spread by
`...tools.tokenProvider`. -/
structure Tools where
  fields : List (String × FieldValue)
  tokenFields : List (String × FieldValue)
  deriving DecidableEq, Repr

/-- One call made to the Environment Registry, recorded in the trace. -/
inductive RegistryCall where
  | listCall : String → RegistryCall
  | loadCall : (projectPath : String) → (envName : String) →
      (crypto : Option LocalCrypto) → RegistryCall
  deriving DecidableEq, Repr

/-- The `environmentManager` collaborator: the configured default
environment name and the two registry operations, as pure oracles. -/
structure EnvironmentManager where
  defaultEnvName : String
  listEnvProfiles : String → FxResult (List String)
  loadEnvProfile : String → String → Option LocalCrypto → FxResult EnvInfo

/-! ## Question tree (`_getQuestionsForProvision`) -/

/-- Modelled from the spec: a question node carries a prompt
specification — here either a single-select with a static option set or
a free-text prompt — identified by the name under which its answer is
stored.  The concrete `QuestionSelectTargetEnvironment` and
`QuestionNewTargetEnvironmentName` objects live in `../question`,
outside the sampled source. -/
inductive QuestionData where
  | singleSelect : (name : String) → (staticOptions : List String) → QuestionData
  | text : (name : String) → QuestionData
  deriving DecidableEq, Repr

/-- Modelled from the spec: the condition guarding a child node —
"only show if parent answer equals literal X" (`{ equals: "+ new env" }`
in the source). -/
inductive Condition where
  | equalsLit : String → Condition
  deriving DecidableEq, Repr

/-- `QTreeNode`: question data, an optional condition, and children. -/
inductive QTreeNode where
  | mk : QuestionData → Option Condition → List QTreeNode → QTreeNode

def QTreeNode.data : QTreeNode → QuestionData
  | .mk d _ _ => d

def QTreeNode.condition : QTreeNode → Option Condition
  | .mk _ c _ => c

def QTreeNode.children : QTreeNode → List QTreeNode
  | .mk _ _ cs => cs

/-- `node.addChild(child)` appends the child to the node's children. -/
def QTreeNode.addChild : QTreeNode → QTreeNode → QTreeNode
  | .mk d c cs, child => .mk d c (cs ++ [child])

/-- Modelled from the spec: `QTreeNode.trim()` is defined in the external
`teamsfx-api` package.  On the tree built here — a root carrying real
question data with one guarded child — the spec describes the resulting
tree directly as root-plus-child, so trim keeps the node. -/
def QTreeNode.trim (n : QTreeNode) : Option QTreeNode := some n

/-- Modelled from the spec: a child node is visible during traversal iff
its condition (if any) evaluates to true against the parent's answer;
an `equals` condition holds iff the answer literal-equals the constant. -/
def conditionHolds (c : Option Condition) (parentAnswer : String) : Bool :=
  match c with
  | none => true
  | some (.equalsLit s) => parentAnswer == s

/-- Modelled from the spec: the select question defined in `../question`;
its answer is stored under `targetEnvName`.  Its static options are
overwritten by `_getQuestionsForProvision` before use. -/
def QuestionSelectTargetEnvironment : QuestionData :=
  .singleSelect "targetEnvName" []

/-- Modelled from the spec: the free-text question defined in
`../question`; its answer is stored under `newTargetEnvName`. -/
def QuestionNewTargetEnvironmentName : QuestionData :=
  .text "newTargetEnvName"

/-- Overwrite the static options of a select question
(`selectEnv.staticOptions = ...`). -/
def QuestionData.withStaticOptions : QuestionData → List String → QuestionData
  | .singleSelect n _, opts => .singleSelect n opts
  | .text n, _ => .text n

/-- Embedding of `_getQuestionsForProvision`: guard on `projectPath`,
list the existing environment names, build the two-level tree whose root
options are `["+ new env"].concat(existing)` and whose child is guarded
by `{ equals: "+ new env" }`.  Returns the result together with the
registry calls performed. -/
def getQuestionsForProvision (em : EnvironmentManager) (inputs : Inputs) :
    FxResult (Option QTreeNode) × List RegistryCall :=
  if inputs.projectPathFalsy then
    (.error .NoProjectOpenedError, [])
  else
    let pp := inputs.projectPathOrEmpty
    match em.listEnvProfiles pp with
    | .error e => (.error e, [.listCall pp])
    | .ok envList =>
      let selectEnv := QuestionSelectTargetEnvironment.withStaticOptions
        (["+ new env"] ++ envList)
      let node : QTreeNode := .mk selectEnv none []
      let childNode : QTreeNode :=
        .mk QuestionNewTargetEnvironmentName (some (.equalsLit "+ new env")) []
      let node := node.addChild childNode
      (.ok node.trim, [.listCall pp])

/-! ## Traversal and `askTargetEnvironment` -/

/-- The UI traversal collaborator `traverse(node, inputs, ui)`: given the
tree and the current inputs it either succeeds or fails, and in both
cases may have written answers into the (in-place mutated) inputs.
Modelled as an oracle returning the optional error and the post-state. -/
abbrev TraverseFn := QTreeNode → Inputs → Option FxError × Inputs

/-- The observable outcome of `askTargetEnvironment` (whose TypeScript
return type is `void`): the error it recorded into `ctx.result` if any,
the inputs after possible traversal mutation, and the registry calls. -/
structure AskResult where
  ctxResultErr : Option FxError
  inputs : Inputs
  calls : List RegistryCall
  deriving Repr

/-- Embedding of `askTargetEnvironment`: build the question tree; on
failure record the error into `ctx.result` and return (the function
returns `void`, so the failure is only recorded, not returned); else run
`traverse`, recording its failure into `ctx.result` likewise.  The
duplicated `isErr` check in the source is dead code with no effect.
Logging is observational and omitted. -/
def askTargetEnvironment (em : EnvironmentManager) (tr : TraverseFn)
    (inputs : Inputs) : AskResult :=
  match getQuestionsForProvision em inputs with
  | (.error e, calls) => ⟨some e, inputs, calls⟩
  | (.ok none, calls) => ⟨none, inputs, calls⟩
  | (.ok (some node), calls) =>
    match tr node inputs with
    | (some e, inputs2) => ⟨some e, inputs2, calls⟩
    | (none, inputs2) => ⟨none, inputs2, calls⟩

/-! ## Context assembly and `loadSolutionContext` -/

/-- The `SolutionContext` object literal of `loadSolutionContext`, in
source evaluation order: the four environment-specific fields first,
then the `...tools` and `...tools.tokenProvider` spreads, then
`answers` and `cryptoProvider`. -/
def solutionContextEntries (projectSettings : ProjectSettings)
    (envInfo : EnvInfo) (root : String) (tools : Tools)
    (answers : Inputs) (crypto : LocalCrypto) : JSObject :=
  [("projectSettings", .settings projectSettings),
   ("targetEnvName", .str envInfo.envName),
   ("config", .configMap envInfo.data),
   ("root", .str root)]
  ++ tools.fields ++ tools.tokenFields
  ++ [("answers", .answers answers),
      ("cryptoProvider", .crypto crypto)]

/-- The observable outcome of `loadSolutionContext`: its returned
result, the registry calls it performed, and any error that
`askTargetEnvironment` recorded into `ctx.result` along the way. -/
structure LoadOutcome where
  result : FxResult JSObject
  calls : List RegistryCall
  ctxResultErr : Option FxError
  deriving Repr

/-- The tail of `loadSolutionContext` once the final target environment
name is known (lines 64-89 of the source, shared by the new-env and
existing-env paths): build `LocalCrypto(projectSettings.projectId)`,
call `loadEnvProfile` with `undefined` crypto when `ctx.projectIdMissing`
(`pim`), and on success assemble the context literal. -/
def loadSolutionContextFinish (em : EnvironmentManager) (ask : AskResult)
    (projectSettings : ProjectSettings) (pim : Bool) (tools : Tools)
    (targetEnvName : String) : LoadOutcome :=
  let cryptoProvider : LocalCrypto := ⟨projectSettings.projectId⟩
  let cryptoArg := if pim then none else some cryptoProvider
  let pp := ask.inputs.projectPathOrEmpty
  let calls := ask.calls ++ [.loadCall pp targetEnvName cryptoArg]
  match em.loadEnvProfile pp targetEnvName cryptoArg with
  | .error e => ⟨.error e, calls, ask.ctxResultErr⟩
  | .ok envInfo =>
    let sc := solutionContextEntries projectSettings envInfo
      ask.inputs.projectPathOrEmpty tools ask.inputs cryptoProvider
    ⟨.ok sc, calls, ask.ctxResultErr⟩

/-- Embedding of `loadSolutionContext`:
guard (`!inputs.projectPath || !ctx.projectSettings`); run
`askTargetEnvironment` (its recorded error is NOT consulted);
`targetEnvName = inputs.targetEnvName ?? defaultEnvName`; the
`"+ new env"` branch requires `inputs.newTargetEnvName` and otherwise
returns `NoProjectOpenedError`; then the shared tail
`loadSolutionContextFinish` loads the profile and assembles the
context. -/
def loadSolutionContext (em : EnvironmentManager) (tr : TraverseFn)
    (ctx : CoreHookContext) (tools : Tools) (inputs : Inputs) : LoadOutcome :=
  match ctx.projectSettings with
  | none => ⟨.error .NoProjectOpenedError, [], none⟩
  | some projectSettings =>
    if inputs.projectPathFalsy then
      ⟨.error .NoProjectOpenedError, [], none⟩
    else
      let ask := askTargetEnvironment em tr inputs
      let targetEnvName0 := ask.inputs.targetEnvName.getD em.defaultEnvName
      if targetEnvName0 == "+ new env" then
        if ask.inputs.newTargetEnvNameFalsy then
          ⟨.error .NoProjectOpenedError, ask.calls, ask.ctxResultErr⟩
        else
          loadSolutionContextFinish em ask projectSettings ctx.projectIdMissing
            tools (ask.inputs.newTargetEnvName.getD "")
      else
        loadSolutionContextFinish em ask projectSettings ctx.projectIdMissing
          tools targetEnvName0

/-- Embedding of `newSolutionContext`: fresh project settings with a
newly minted UUID (passed as the oracle value `u`), the fixed
`fx-solution-azure`/`1.0.0` solution-settings stanza, an empty config
map, and the same literal shape as `loadSolutionContext`'s (without
`targetEnvName`).  It performs no registry call. -/
def newSolutionContext (u : String) (tools : Tools) (inputs : Inputs) :
    JSObject × List RegistryCall :=
  let projectSettings : ProjectSettings :=
    { appName := ""
      projectId := u
      solutionSettings := { name := "fx-solution-azure", version := "1.0.0" } }
  let sc : JSObject :=
    [("projectSettings", .settings projectSettings),
     ("config", .configMap []),
     ("root", .str inputs.projectPathOrEmpty)]
    ++ tools.fields ++ tools.tokenFields
    ++ [("answers", .answers inputs),
        ("cryptoProvider", .crypto ⟨projectSettings.projectId⟩)]
  (sc, [])

/-! ## Concrete fixtures used by witnesses and counterexamples -/

/-- A registry with environments `dev`, `prod` whose load echoes the
requested name back with one config entry. -/
def emTest : EnvironmentManager :=
  { defaultEnvName := "default"
    listEnvProfiles := fun _ => .ok ["dev", "prod"]
    loadEnvProfile := fun _ en _ => .ok ⟨en, [("k", "v")]⟩ }

/-- A registry whose load returns a profile under a normalized name,
different from any requested candidate. -/
def emNorm : EnvironmentManager :=
  { defaultEnvName := "default"
    listEnvProfiles := fun _ => .ok ["dev", "prod"]
    loadEnvProfile := fun _ _ _ => .ok ⟨"normalized", []⟩ }

/-- A traversal in which the operator answers nothing further:
it succeeds and leaves the inputs unchanged. -/
def trOk : TraverseFn := fun _ i => (none, i)

/-- A traversal in which the operator cancels at the root prompt:
it fails with a cancellation error, inputs unchanged. -/
def trCancel : TraverseFn := fun _ i => (some .UserCancelError, i)

/-- A benign tools bag: handles under their usual names, none colliding
with environment-specific fields. -/
def toolsTest : Tools :=
  { fields := [("logProvider", .toolHandle "log"), ("ui", .toolHandle "ui"),
               ("telemetryReporter", .toolHandle "tel"),
               ("tokenProvider", .toolHandle "tok")]
    tokenFields := [("graphTokenProvider", .toolHandle "graph"),
                    ("appStudioToken", .toolHandle "appStudio")] }

/-- A tools bag that (against the implicit contract) carries a field
named `root`. -/
def toolsEvil : Tools :=
  { fields := [("root", .str "evil")], tokenFields := [] }

def psTest : ProjectSettings :=
  ⟨"app", "pid-123", ⟨"fx-solution-azure", "1.0.0"⟩⟩

def inputsP : Inputs := ⟨some "p", none, none⟩

/-- Inputs that select the sentinel without supplying a new name. -/
def inputsNewNoName : Inputs := ⟨some "p", some "+ new env", none⟩

/-- `Prop`-level statement that a tools bag binds no field named `k`. -/
def Tools.avoidsKey (tools : Tools) (k : String) : Prop :=
  tools.fields.find? (fun p => p.1 == k) = none ∧
  tools.tokenFields.find? (fun p => p.1 == k) = none

instance (tools : Tools) (k : String) : Decidable (tools.avoidsKey k) := by
  unfold Tools.avoidsKey
  infer_instance

/-! ## Helper lemmas on field lookup and the call trace -/

/-- If a key is unbound in the right part, looking it up in an appended
object falls through to the left part. -/
theorem lookupField_append_of_none (a b : JSObject) (k : String)
    (h : b.find? (fun p => p.1 == k) = none) :
    lookupField (a ++ b) k = lookupField a k := by
  unfold lookupField
  rw [List.reverse_append, List.find?_append]
  have hrev : b.reverse.find? (fun p => p.1 == k) = none := by
    rw [List.find?_eq_none] at h ⊢
    intro x hx
    exact h x (List.mem_reverse.mp hx)
  rw [hrev, Option.none_or]

/-- If a key resolves in the right part, it also resolves that way in an
appended object (the later binding wins). -/
theorem lookupField_append_of_some (a b : JSObject) (k : String) (v : FieldValue)
    (h : lookupField b k = some v) :
    lookupField (a ++ b) k = some v := by
  unfold lookupField at h ⊢
  rw [List.reverse_append, List.find?_append]
  obtain ⟨pr, hpr, hv⟩ : ∃ pr, b.reverse.find? (fun p => p.1 == k) = some pr ∧ pr.2 = v := by
    cases hfind : b.reverse.find? (fun p => p.1 == k) with
    | none => rw [hfind] at h; simp at h
    | some pr => rw [hfind] at h; exact ⟨pr, rfl, by simpa using h⟩
  rw [hpr]
  simpa [Option.or] using hv

/-- Looking up a key that the tool spreads avoid and the trailing
segment does not bind falls through to the leading environment-specific
segment. -/
theorem lookupField_skip_tools (pre : JSObject) (tools : Tools) (post : JSObject)
    (k : String) (hk : tools.avoidsKey k)
    (hpost : post.find? (fun p => p.1 == k) = none) :
    lookupField (pre ++ tools.fields ++ tools.tokenFields ++ post) k =
      lookupField pre k := by
  rw [lookupField_append_of_none _ _ _ hpost,
      lookupField_append_of_none _ _ _ hk.2,
      lookupField_append_of_none _ _ _ hk.1]

/-- The registry calls of `askTargetEnvironment` are exactly those of
the question-building stage; traversal performs none. -/
theorem askTargetEnvironment_calls (em : EnvironmentManager)
    (tr : TraverseFn) (inputs : Inputs) :
    (askTargetEnvironment em tr inputs).calls =
      (getQuestionsForProvision em inputs).2 := by
  unfold askTargetEnvironment
  rcases hq : getQuestionsForProvision em inputs with ⟨res, calls⟩
  match res with
  | .error e => rfl
  | .ok none => rfl
  | .ok (some node) =>
    rcases htr : tr node inputs with ⟨oe, i2⟩
    cases oe <;> simp [htr]

/-- The question-building stage never issues a profile-load call. -/
theorem getQuestionsForProvision_no_load (em : EnvironmentManager)
    (inputs : Inputs) :
    ∀ pp en c, RegistryCall.loadCall pp en c ∉
      (getQuestionsForProvision em inputs).2 := by
  intro pp en c
  unfold getQuestionsForProvision
  split
  · simp
  · cases hlist : em.listEnvProfiles inputs.projectPathOrEmpty <;>
      simp only [hlist] <;> simp

/-- Every registry call recorded by `askTargetEnvironment` is a list
call: no profile load happens before or during traversal. -/
theorem askTargetEnvironment_calls_no_load (em : EnvironmentManager)
    (tr : TraverseFn) (inputs : Inputs) :
    ∀ pp en c, RegistryCall.loadCall pp en c ∉
      (askTargetEnvironment em tr inputs).calls := by
  intro pp en c
  rw [askTargetEnvironment_calls]
  exact getQuestionsForProvision_no_load em inputs pp en c

/-- Branch characterization: project open, non-falsy path, resolved
candidate not the sentinel — `loadSolutionContext` is the shared tail
at the candidate name. -/
theorem loadSolutionContext_not_sentinel (em : EnvironmentManager)
    (tr : TraverseFn) (ps : ProjectSettings) (pim : Bool) (tools : Tools)
    (inputs : Inputs)
    (hpp : inputs.projectPathFalsy = false)
    (hsel : ((askTargetEnvironment em tr inputs).inputs.targetEnvName.getD
        em.defaultEnvName == "+ new env") = false) :
    loadSolutionContext em tr ⟨some ps, pim⟩ tools inputs =
      loadSolutionContextFinish em (askTargetEnvironment em tr inputs) ps pim
        tools ((askTargetEnvironment em tr inputs).inputs.targetEnvName.getD
          em.defaultEnvName) := by
  unfold loadSolutionContext
  simp [hpp, hsel]

/-- Branch characterization: sentinel selected but the new-name answer
falsy — the error outcome, with only the ask-stage calls. -/
theorem loadSolutionContext_sentinel_missing (em : EnvironmentManager)
    (tr : TraverseFn) (ps : ProjectSettings) (pim : Bool) (tools : Tools)
    (inputs : Inputs)
    (hpp : inputs.projectPathFalsy = false)
    (hsel : ((askTargetEnvironment em tr inputs).inputs.targetEnvName.getD
        em.defaultEnvName == "+ new env") = true)
    (hname : (askTargetEnvironment em tr inputs).inputs.newTargetEnvNameFalsy
        = true) :
    loadSolutionContext em tr ⟨some ps, pim⟩ tools inputs =
      ⟨.error .NoProjectOpenedError, (askTargetEnvironment em tr inputs).calls,
       (askTargetEnvironment em tr inputs).ctxResultErr⟩ := by
  unfold loadSolutionContext
  simp [hpp, hsel, hname]

/-- Branch characterization: sentinel selected and a new name supplied —
the shared tail at the new name. -/
theorem loadSolutionContext_sentinel_named (em : EnvironmentManager)
    (tr : TraverseFn) (ps : ProjectSettings) (pim : Bool) (tools : Tools)
    (inputs : Inputs)
    (hpp : inputs.projectPathFalsy = false)
    (hsel : ((askTargetEnvironment em tr inputs).inputs.targetEnvName.getD
        em.defaultEnvName == "+ new env") = true)
    (hname : (askTargetEnvironment em tr inputs).inputs.newTargetEnvNameFalsy
        = false) :
    loadSolutionContext em tr ⟨some ps, pim⟩ tools inputs =
      loadSolutionContextFinish em (askTargetEnvironment em tr inputs) ps pim
        tools ((askTargetEnvironment em tr inputs).inputs.newTargetEnvName.getD
          "") := by
  unfold loadSolutionContext
  simp [hpp, hsel, hname]

/-- The calls of the shared tail: the ask-stage calls followed by
exactly one profile-load call whose crypto argument is absent iff the
identity-missing flag is set. -/
theorem loadSolutionContextFinish_calls (em : EnvironmentManager)
    (ask : AskResult) (ps : ProjectSettings) (pim : Bool) (tools : Tools)
    (tn : String) :
    (loadSolutionContextFinish em ask ps pim tools tn).calls =
      ask.calls ++ [.loadCall ask.inputs.projectPathOrEmpty tn
        (if pim then none else some ⟨ps.projectId⟩)] := by
  unfold loadSolutionContextFinish
  rcases h : em.loadEnvProfile ask.inputs.projectPathOrEmpty tn
      (if pim then none else some ⟨ps.projectId⟩) with e | envInfo <;>
    simp [h]

/-- If the shared tail succeeds, the registry returned a profile for the
requested name and the resulting context is the literal assembled from
that profile. -/
theorem loadSolutionContextFinish_result_ok (em : EnvironmentManager)
    (ask : AskResult) (ps : ProjectSettings) (pim : Bool) (tools : Tools)
    (tn : String) (sc : JSObject)
    (h : (loadSolutionContextFinish em ask ps pim tools tn).result = .ok sc) :
    ∃ envInfo,
      em.loadEnvProfile ask.inputs.projectPathOrEmpty tn
        (if pim then none else some ⟨ps.projectId⟩) = .ok envInfo ∧
      sc = solutionContextEntries ps envInfo ask.inputs.projectPathOrEmpty
        tools ask.inputs ⟨ps.projectId⟩ := by
  unfold loadSolutionContextFinish at h
  rcases hl : em.loadEnvProfile ask.inputs.projectPathOrEmpty tn
      (if pim then none else some ⟨ps.projectId⟩) with e | envInfo <;>
    simp only [hl] at h
  · exact absurd h (by simp)
  · exact ⟨envInfo, rfl, by simpa using h.symm⟩

/-- Characterization of every profile-load call `loadSolutionContext`
makes: its crypto argument is absent iff the identity-missing flag is
set, its path is the (possibly traversal-mutated) project path, and its
environment name is the new name when the sentinel was selected and the
candidate name otherwise. -/
theorem loadSolutionContext_loadCall_char (em : EnvironmentManager)
    (tr : TraverseFn) (ps : ProjectSettings) (pim : Bool) (tools : Tools)
    (inputs : Inputs) (pp en : String) (c : Option LocalCrypto)
    (hmem : RegistryCall.loadCall pp en c ∈
      (loadSolutionContext em tr ⟨some ps, pim⟩ tools inputs).calls) :
    c = (if pim then none else some ⟨ps.projectId⟩) ∧
    pp = (askTargetEnvironment em tr inputs).inputs.projectPathOrEmpty ∧
    en = (if ((askTargetEnvironment em tr inputs).inputs.targetEnvName.getD
            em.defaultEnvName == "+ new env")
          then (askTargetEnvironment em tr inputs).inputs.newTargetEnvName.getD ""
          else (askTargetEnvironment em tr inputs).inputs.targetEnvName.getD
            em.defaultEnvName) := by
  cases hpp : inputs.projectPathFalsy with
  | true =>
    unfold loadSolutionContext at hmem
    simp [hpp] at hmem
  | false =>
    cases hsel : ((askTargetEnvironment em tr inputs).inputs.targetEnvName.getD
        em.defaultEnvName == "+ new env") with
    | false =>
      rw [loadSolutionContext_not_sentinel em tr ps pim tools inputs hpp hsel,
          loadSolutionContextFinish_calls] at hmem
      rcases List.mem_append.mp hmem with h | h
      · exact absurd h (askTargetEnvironment_calls_no_load em tr inputs pp en c)
      · simp only [List.mem_singleton] at h
        injection h with h1 h2 h3
        refine ⟨h3, h1, ?_⟩
        simpa using h2
    | true =>
      cases hname : (askTargetEnvironment em tr inputs).inputs.newTargetEnvNameFalsy with
      | true =>
        rw [loadSolutionContext_sentinel_missing em tr ps pim tools inputs
          hpp hsel hname] at hmem
        exact absurd hmem (askTargetEnvironment_calls_no_load em tr inputs pp en c)
      | false =>
        rw [loadSolutionContext_sentinel_named em tr ps pim tools inputs hpp hsel hname,
            loadSolutionContextFinish_calls] at hmem
        rcases List.mem_append.mp hmem with h | h
        · exact absurd h (askTargetEnvironment_calls_no_load em tr inputs pp en c)
        · simp only [List.mem_singleton] at h
          injection h with h1 h2 h3
          refine ⟨h3, h1, ?_⟩
          simpa using h2

/-- Characterization of a successful resolution: some final name was
submitted to the registry, the registry returned a profile for it, and
the returned context is the literal assembled from that profile; the
call trace ends with that single load call. -/
theorem loadSolutionContext_result_ok_char (em : EnvironmentManager)
    (tr : TraverseFn) (ps : ProjectSettings) (pim : Bool) (tools : Tools)
    (inputs : Inputs) (sc : JSObject)
    (hok : (loadSolutionContext em tr ⟨some ps, pim⟩ tools inputs).result = .ok sc) :
    ∃ tn envInfo,
      em.loadEnvProfile (askTargetEnvironment em tr inputs).inputs.projectPathOrEmpty
          tn (if pim then none else some ⟨ps.projectId⟩) = .ok envInfo ∧
      sc = solutionContextEntries ps envInfo
          (askTargetEnvironment em tr inputs).inputs.projectPathOrEmpty tools
          (askTargetEnvironment em tr inputs).inputs ⟨ps.projectId⟩ ∧
      (loadSolutionContext em tr ⟨some ps, pim⟩ tools inputs).calls =
        (askTargetEnvironment em tr inputs).calls ++
          [.loadCall (askTargetEnvironment em tr inputs).inputs.projectPathOrEmpty
            tn (if pim then none else some ⟨ps.projectId⟩)] := by
  cases hpp : inputs.projectPathFalsy with
  | true =>
    unfold loadSolutionContext at hok
    simp [hpp] at hok
  | false =>
    cases hsel : ((askTargetEnvironment em tr inputs).inputs.targetEnvName.getD
        em.defaultEnvName == "+ new env") with
    | false =>
      rw [loadSolutionContext_not_sentinel em tr ps pim tools inputs hpp hsel] at hok ⊢
      obtain ⟨envInfo, hload, hsc⟩ :=
        loadSolutionContextFinish_result_ok _ _ _ _ _ _ _ hok
      exact ⟨_, envInfo, hload, hsc, loadSolutionContextFinish_calls _ _ _ _ _ _⟩
    | true =>
      cases hname : (askTargetEnvironment em tr inputs).inputs.newTargetEnvNameFalsy with
      | true =>
        rw [loadSolutionContext_sentinel_missing em tr ps pim tools inputs
          hpp hsel hname] at hok
        exact absurd hok (by simp)
      | false =>
        rw [loadSolutionContext_sentinel_named em tr ps pim tools inputs
          hpp hsel hname] at hok ⊢
        obtain ⟨envInfo, hload, hsc⟩ :=
          loadSolutionContextFinish_result_ok _ _ _ _ _ _ _ hok
        exact ⟨_, envInfo, hload, hsc, loadSolutionContextFinish_calls _ _ _ _ _ _⟩

/-- The assembled context's `targetEnvName` field, provided the tool
spreads avoid that key, is the loaded profile's `envName`. -/
theorem lookupField_entries_targetEnvName (ps : ProjectSettings)
    (envInfo : EnvInfo) (root : String) (tools : Tools) (answers : Inputs)
    (crypto : LocalCrypto) (hk : tools.avoidsKey "targetEnvName") :
    lookupField (solutionContextEntries ps envInfo root tools answers crypto)
      "targetEnvName" = some (.str envInfo.envName) := by
  unfold solutionContextEntries
  rw [lookupField_skip_tools _ _ _ _ hk (by rfl)]
  rfl

/-- The assembled context's `cryptoProvider` field is the provider the
assembler constructed, whatever the tool spreads contain: the binding
comes after the spreads, so the later binding wins. -/
theorem lookupField_entries_crypto (ps : ProjectSettings) (envInfo : EnvInfo)
    (root : String) (tools : Tools) (answers : Inputs) (crypto : LocalCrypto) :
    lookupField (solutionContextEntries ps envInfo root tools answers crypto)
      "cryptoProvider" = some (.crypto crypto) := by
  unfold solutionContextEntries
  exact lookupField_append_of_some _ _ _ _ (by rfl)

/-- The fields of the freshly synthesized context: the new project
settings with the fixed solution-settings stanza, the empty config map,
the crypto provider keyed by the new id, and an empty registry trace. -/
theorem newSolutionContext_fields (u : String) (tools : Tools) (i : Inputs)
    (hs : tools.avoidsKey "projectSettings") (hc : tools.avoidsKey "config") :
    lookupField (newSolutionContext u tools i).1 "projectSettings"
      = some (.settings ⟨"", u, ⟨"fx-solution-azure", "1.0.0"⟩⟩) ∧
    lookupField (newSolutionContext u tools i).1 "config" = some (.configMap []) ∧
    lookupField (newSolutionContext u tools i).1 "cryptoProvider"
      = some (.crypto ⟨u⟩) ∧
    (newSolutionContext u tools i).2 = [] := by
  refine ⟨?_, ?_, ?_, rfl⟩
  · simp only [newSolutionContext]
    rw [lookupField_skip_tools _ _ _ _ hs (by rfl)]
    rfl
  · simp only [newSolutionContext]
    rw [lookupField_skip_tools _ _ _ _ hc (by rfl)]
    rfl
  · simp only [newSolutionContext]
    exact lookupField_append_of_some _ _ _ _ (by rfl)

/-! ## Claims -/

/-- C1 (code bug evidence): the spec says that when obtaining the root
answer fails (operator cancellation), resolution returns the failure
and no registry load occurs.  The code records the traversal error into
`ctx.result`, but `askTargetEnvironment` returns `void`, so
`loadSolutionContext` proceeds regardless: at a concrete input where
traversal is cancelled, the cancellation is recorded, yet a
profile-load call for the default environment still occurs and the
resolution returns a successfully assembled context. -/
theorem C1_cancelled_traversal_still_loads :
    (loadSolutionContext emTest trCancel ⟨some psTest, false⟩ toolsTest
        inputsP).ctxResultErr = some .UserCancelError ∧
    (loadSolutionContext emTest trCancel ⟨some psTest, false⟩ toolsTest
        inputsP).calls =
      [.listCall "p", .loadCall "p" "default" (some ⟨"pid-123"⟩)] ∧
    (loadSolutionContext emTest trCancel ⟨some psTest, false⟩ toolsTest
        inputsP).result =
      .ok (solutionContextEntries psTest ⟨"default", [("k", "v")]⟩ "p"
        toolsTest inputsP ⟨"pid-123"⟩) :=
  ⟨rfl, rfl, rfl⟩

/-- C2 (counterexample): selecting the sentinel with no new name makes
`loadSolutionContext` fail with `NoProjectOpenedError` — the code
reuses the no-project error — not with a `MissingNewEnvironmentName`
error as the claim states. -/
theorem C2_missing_name_error_is_no_project :
    (loadSolutionContext emTest trOk ⟨some psTest, false⟩ toolsTest
        inputsNewNoName).result = .error .NoProjectOpenedError ∧
    (loadSolutionContext emTest trOk ⟨some psTest, false⟩ toolsTest
        inputsNewNoName).result ≠ .error .MissingNewEnvironmentName := by
  refine ⟨rfl, ?_⟩
  intro h
  rw [(rfl : (loadSolutionContext emTest trOk ⟨some psTest, false⟩ toolsTest
    inputsNewNoName).result = .error .NoProjectOpenedError)] at h
  exact FxError.noConfusion (Except.error.inj h)

/-- C2 (amended): with the sentinel selected and the new-name answer
absent or empty, `loadSolutionContext` fails — with the reused
`NoProjectOpenedError` — and performs no profile-load call, so it never
falls back to a default environment name. -/
theorem C2_new_env_missing_name (em : EnvironmentManager) (tr : TraverseFn)
    (ps : ProjectSettings) (pim : Bool) (tools : Tools) (inputs : Inputs)
    (hpp : inputs.projectPathFalsy = false)
    (hsel : ((askTargetEnvironment em tr inputs).inputs.targetEnvName.getD
        em.defaultEnvName == "+ new env") = true)
    (hname : (askTargetEnvironment em tr inputs).inputs.newTargetEnvNameFalsy
        = true) :
    (loadSolutionContext em tr ⟨some ps, pim⟩ tools inputs).result =
      .error .NoProjectOpenedError ∧
    ∀ pp en c, RegistryCall.loadCall pp en c ∉
      (loadSolutionContext em tr ⟨some ps, pim⟩ tools inputs).calls := by
  rw [loadSolutionContext_sentinel_missing em tr ps pim tools inputs hpp hsel hname]
  exact ⟨rfl, fun pp en c => askTargetEnvironment_calls_no_load em tr inputs pp en c⟩

/-- C2 (witness): the amended claim at the concrete sentinel-no-name
input. -/
theorem C2_new_env_missing_name_witness :
    (loadSolutionContext emTest trOk ⟨some psTest, false⟩ toolsTest
        inputsNewNoName).result = .error .NoProjectOpenedError ∧
    RegistryCall.loadCall "p" "default" none ∉
      (loadSolutionContext emTest trOk ⟨some psTest, false⟩ toolsTest
        inputsNewNoName).calls :=
  ⟨(C2_new_env_missing_name emTest trOk psTest false toolsTest inputsNewNoName
      rfl rfl rfl).1,
   (C2_new_env_missing_name emTest trOk psTest false toolsTest inputsNewNoName
      rfl rfl rfl).2 "p" "default" none⟩

/-- C3 (counterexample): the tool spreads come after the
environment-specific fields in the context literal, so a tools object
carrying a field named `root` overwrites the environment-derived
`root`: with such a tools object the resolution succeeds and the
assembled context's `root` field is the tool value, not the project
path. -/
theorem C3_tool_field_overwrites_root :
    (loadSolutionContext emTest trOk ⟨some psTest, false⟩ toolsEvil
        inputsP).result =
      .ok (solutionContextEntries psTest ⟨"default", [("k", "v")]⟩ "p"
        toolsEvil inputsP ⟨"pid-123"⟩) ∧
    lookupField (solutionContextEntries psTest ⟨"default", [("k", "v")]⟩ "p"
        toolsEvil inputsP ⟨"pid-123"⟩) "root" = some (.str "evil") ∧
    FieldValue.str "evil" ≠ FieldValue.str "p" :=
  ⟨rfl, rfl, by decide⟩

/-- C3 (amended): the environment-specific fields are written first and
the tool handles and token sub-handles are spread after them, so on a
key collision the tool field wins; for every tools object binding none
of the four environment-specific keys, the aggregate's
`projectSettings`, `targetEnvName`, `config` and `root` equal the
environment-derived values. -/
theorem C3_no_collision_env_fields (ps : ProjectSettings) (envInfo : EnvInfo)
    (root : String) (tools : Tools) (answers : Inputs) (crypto : LocalCrypto)
    (h1 : tools.avoidsKey "projectSettings")
    (h2 : tools.avoidsKey "targetEnvName")
    (h3 : tools.avoidsKey "config")
    (h4 : tools.avoidsKey "root") :
    lookupField (solutionContextEntries ps envInfo root tools answers crypto)
      "projectSettings" = some (.settings ps) ∧
    lookupField (solutionContextEntries ps envInfo root tools answers crypto)
      "targetEnvName" = some (.str envInfo.envName) ∧
    lookupField (solutionContextEntries ps envInfo root tools answers crypto)
      "config" = some (.configMap envInfo.data) ∧
    lookupField (solutionContextEntries ps envInfo root tools answers crypto)
      "root" = some (.str root) := by
  refine ⟨?_, lookupField_entries_targetEnvName ps envInfo root tools answers
    crypto h2, ?_, ?_⟩
  · unfold solutionContextEntries
    rw [lookupField_skip_tools _ _ _ _ h1 (by rfl)]
    rfl
  · unfold solutionContextEntries
    rw [lookupField_skip_tools _ _ _ _ h3 (by rfl)]
    rfl
  · unfold solutionContextEntries
    rw [lookupField_skip_tools _ _ _ _ h4 (by rfl)]
    rfl

/-- C3 (witness): the amended claim at a benign concrete tools bag. -/
theorem C3_no_collision_env_fields_witness :
    lookupField (solutionContextEntries psTest ⟨"dev", []⟩ "p" toolsTest
      inputsP ⟨"pid-123"⟩) "projectSettings" = some (.settings psTest) ∧
    lookupField (solutionContextEntries psTest ⟨"dev", []⟩ "p" toolsTest
      inputsP ⟨"pid-123"⟩) "targetEnvName" = some (.str "dev") ∧
    lookupField (solutionContextEntries psTest ⟨"dev", []⟩ "p" toolsTest
      inputsP ⟨"pid-123"⟩) "config" = some (.configMap []) ∧
    lookupField (solutionContextEntries psTest ⟨"dev", []⟩ "p" toolsTest
      inputsP ⟨"pid-123"⟩) "root" = some (.str "p") :=
  C3_no_collision_env_fields psTest ⟨"dev", []⟩ "p" toolsTest inputsP
    ⟨"pid-123"⟩ (by decide) (by decide) (by decide) (by decide)

/-- C4: for every environment-name list the registry returns, the built
root question is a single-select whose static options are exactly
`"+ new env"` followed by the list in order, with a single free-text
child guarded by equality with the sentinel, and the child's condition
holds for an answer iff it literal-equals `"+ new env"`. -/
theorem C4_sentinel_routing (em : EnvironmentManager) (inputs : Inputs)
    (L : List String)
    (hpp : inputs.projectPathFalsy = false)
    (hlist : em.listEnvProfiles inputs.projectPathOrEmpty = .ok L) :
    (getQuestionsForProvision em inputs).1 =
      .ok (some (QTreeNode.mk (.singleSelect "targetEnvName" ("+ new env" :: L))
        none [QTreeNode.mk QuestionNewTargetEnvironmentName
          (some (.equalsLit "+ new env")) []])) ∧
    ∀ ans, conditionHolds (QTreeNode.mk QuestionNewTargetEnvironmentName
      (some (.equalsLit "+ new env")) []).condition ans = true ↔
        ans = "+ new env" := by
  constructor
  · unfold getQuestionsForProvision
    simp [hpp, hlist, QTreeNode.addChild, QTreeNode.trim,
      QuestionSelectTargetEnvironment, QuestionData.withStaticOptions]
  · intro ans
    simp [conditionHolds, QTreeNode.condition]

/-- C4 (witness): the routing tree at the concrete registry with
environments `dev`, `prod`. -/
theorem C4_sentinel_routing_witness :
    (getQuestionsForProvision emTest inputsP).1 =
      .ok (some (QTreeNode.mk
        (.singleSelect "targetEnvName" ["+ new env", "dev", "prod"]) none
        [QTreeNode.mk QuestionNewTargetEnvironmentName
          (some (.equalsLit "+ new env")) []])) ∧
    (conditionHolds (QTreeNode.mk QuestionNewTargetEnvironmentName
      (some (.equalsLit "+ new env")) []).condition "+ new env" = true ↔
        "+ new env" = "+ new env") :=
  ⟨(C4_sentinel_routing emTest inputsP ["dev", "prod"] rfl rfl).1,
   (C4_sentinel_routing emTest inputsP ["dev", "prod"] rfl rfl).2 "+ new env"⟩

/-- C5: when the project path is falsy or the loaded project settings
are absent, `loadSolutionContext` fails with `NoProjectOpenedError` and
the registry call trace is empty — neither `listEnvProfiles` nor
`loadEnvProfile` is invoked. -/
theorem C5_no_project_guard (em : EnvironmentManager) (tr : TraverseFn)
    (ctx : CoreHookContext) (tools : Tools) (inputs : Inputs)
    (h : inputs.projectPathFalsy = true ∨ ctx.projectSettings = none) :
    loadSolutionContext em tr ctx tools inputs =
      ⟨.error .NoProjectOpenedError, [], none⟩ := by
  unfold loadSolutionContext
  rcases hps : ctx.projectSettings with _ | ps
  · rfl
  · rcases h with h | h
    · simp [h]
    · rw [hps] at h
      exact absurd h (by simp)

/-- C5 (witness): the guard at a concrete context with no loaded
project settings. -/
theorem C5_no_project_guard_witness :
    loadSolutionContext emTest trOk ⟨none, false⟩ toolsTest inputsP =
      ⟨.error .NoProjectOpenedError, [], none⟩ :=
  C5_no_project_guard emTest trOk ⟨none, false⟩ toolsTest inputsP (Or.inr rfl)

/-- C6: every profile-load call issued during resolution receives an
absent crypto provider when the identity-missing flag is set, and
otherwise a provider keyed by exactly the project settings' id. -/
theorem C6_crypto_argument (em : EnvironmentManager) (tr : TraverseFn)
    (ps : ProjectSettings) (pim : Bool) (tools : Tools) (inputs : Inputs)
    (pp en : String) (c : Option LocalCrypto)
    (hmem : RegistryCall.loadCall pp en c ∈
      (loadSolutionContext em tr ⟨some ps, pim⟩ tools inputs).calls) :
    c = if pim then none else some ⟨ps.projectId⟩ :=
  (loadSolutionContext_loadCall_char em tr ps pim tools inputs pp en c hmem).1

/-- C6 (witness): a legacy project (flag set) issues its load call with
the absent provider. -/
theorem C6_crypto_argument_witness :
    (none : Option LocalCrypto) =
      if (true : Bool) then none else some ⟨psTest.projectId⟩ :=
  C6_crypto_argument emTest trOk psTest true toolsTest inputsP "p" "default"
    none (by decide)

/-- C7: on success, the assembled context's `targetEnvName` equals the
`envName` of the profile the registry actually returned for the final
load call — not the raw candidate name — provided the tool spreads
respect the implicit no-collision contract for that key. -/
theorem C7_target_name_from_registry (em : EnvironmentManager)
    (tr : TraverseFn) (ps : ProjectSettings) (pim : Bool) (tools : Tools)
    (inputs : Inputs) (sc : JSObject) (pp en : String) (c : Option LocalCrypto)
    (envInfo : EnvInfo)
    (hbenign : tools.avoidsKey "targetEnvName")
    (hok : (loadSolutionContext em tr ⟨some ps, pim⟩ tools inputs).result
        = .ok sc)
    (hlast : (loadSolutionContext em tr ⟨some ps, pim⟩ tools inputs).calls.getLast?
        = some (.loadCall pp en c))
    (hload : em.loadEnvProfile pp en c = .ok envInfo) :
    lookupField sc "targetEnvName" = some (.str envInfo.envName) := by
  obtain ⟨tn, envInfo', hload', hsc, hcalls⟩ :=
    loadSolutionContext_result_ok_char em tr ps pim tools inputs sc hok
  rw [hcalls, List.getLast?_concat] at hlast
  injection hlast with h
  injection h with e1 e2 e3
  subst e1
  subst e2
  subst e3
  have he : envInfo = envInfo' := Except.ok.inj (hload.symm.trans hload')
  rw [hsc, lookupField_entries_targetEnvName _ _ _ _ _ _ hbenign, he]

/-- C7 (witness): with a registry that returns the profile under a
normalized name different from the requested candidate, the assembled
context carries the normalized name. -/
theorem C7_target_name_from_registry_witness :
    lookupField (solutionContextEntries psTest ⟨"normalized", []⟩ "p" toolsTest
      inputsP ⟨"pid-123"⟩) "targetEnvName" = some (.str "normalized") :=
  C7_target_name_from_registry emNorm trOk psTest false toolsTest inputsP
    (solutionContextEntries psTest ⟨"normalized", []⟩ "p" toolsTest inputsP
      ⟨"pid-123"⟩) "p" "default" (some ⟨"pid-123"⟩) ⟨"normalized", []⟩
    (by decide) rfl rfl rfl

/-- C8: when the sentinel was not selected, the name submitted to the
registry load is the directly selected existing environment name when
one is set in the (post-traversal) inputs, and the configured default
environment name when none is. -/
theorem C8_existing_or_default (em : EnvironmentManager) (tr : TraverseFn)
    (ps : ProjectSettings) (pim : Bool) (tools : Tools) (inputs : Inputs)
    (pp en : String) (c : Option LocalCrypto)
    (hsel : ((askTargetEnvironment em tr inputs).inputs.targetEnvName.getD
        em.defaultEnvName == "+ new env") = false)
    (hmem : RegistryCall.loadCall pp en c ∈
      (loadSolutionContext em tr ⟨some ps, pim⟩ tools inputs).calls) :
    (∀ t, (askTargetEnvironment em tr inputs).inputs.targetEnvName = some t →
      en = t) ∧
    ((askTargetEnvironment em tr inputs).inputs.targetEnvName = none →
      en = em.defaultEnvName) := by
  have h :=
    (loadSolutionContext_loadCall_char em tr ps pim tools inputs pp en c hmem).2.2
  rw [hsel] at h
  simp only [Bool.false_eq_true, if_false] at h
  constructor
  · intro t ht
    rw [ht] at h
    simpa using h
  · intro ht
    rw [ht] at h
    simpa using h

/-- C8 (witness): with no explicit selection the load call's name is
the configured default. -/
theorem C8_existing_or_default_witness :
    "default" = emTest.defaultEnvName :=
  (C8_existing_or_default emTest trOk psTest false toolsTest inputsP "p"
    "default" (some ⟨"pid-123"⟩) rfl (by decide)).2 rfl

/-- C9: two synthesize-new invocations with distinct freshly minted
UUIDs produce contexts with different `projectId`s, identical
solution-settings stanzas (`fx-solution-azure`/`1.0.0`), empty config
maps, and crypto providers keyed by each context's own id, and this
path performs no registry call. -/
theorem C9_idempotent_synthesis (u1 u2 : String) (t1 t2 : Tools)
    (i1 i2 : Inputs) (hu : u1 ≠ u2)
    (h1s : t1.avoidsKey "projectSettings") (h1c : t1.avoidsKey "config")
    (h2s : t2.avoidsKey "projectSettings") (h2c : t2.avoidsKey "config") :
    lookupField (newSolutionContext u1 t1 i1).1 "projectSettings"
      = some (.settings ⟨"", u1, ⟨"fx-solution-azure", "1.0.0"⟩⟩) ∧
    lookupField (newSolutionContext u2 t2 i2).1 "projectSettings"
      = some (.settings ⟨"", u2, ⟨"fx-solution-azure", "1.0.0"⟩⟩) ∧
    (⟨"", u1, ⟨"fx-solution-azure", "1.0.0"⟩⟩ : ProjectSettings).projectId ≠
      (⟨"", u2, ⟨"fx-solution-azure", "1.0.0"⟩⟩ : ProjectSettings).projectId ∧
    (⟨"", u1, ⟨"fx-solution-azure", "1.0.0"⟩⟩ : ProjectSettings).solutionSettings
      = (⟨"", u2, ⟨"fx-solution-azure", "1.0.0"⟩⟩ : ProjectSettings).solutionSettings ∧
    lookupField (newSolutionContext u1 t1 i1).1 "config" = some (.configMap []) ∧
    lookupField (newSolutionContext u2 t2 i2).1 "config" = some (.configMap []) ∧
    lookupField (newSolutionContext u1 t1 i1).1 "cryptoProvider"
      = some (.crypto ⟨u1⟩) ∧
    lookupField (newSolutionContext u2 t2 i2).1 "cryptoProvider"
      = some (.crypto ⟨u2⟩) ∧
    (newSolutionContext u1 t1 i1).2 = [] ∧
    (newSolutionContext u2 t2 i2).2 = [] := by
  obtain ⟨a1, b1, c1, d1⟩ := newSolutionContext_fields u1 t1 i1 h1s h1c
  obtain ⟨a2, b2, c2, d2⟩ := newSolutionContext_fields u2 t2 i2 h2s h2c
  exact ⟨a1, a2, hu, rfl, b1, b2, c1, c2, d1, d2⟩

/-- C9 (witness): two concrete distinct UUIDs. -/
theorem C9_idempotent_synthesis_witness :
    lookupField (newSolutionContext "uuid-0001" toolsTest inputsP).1
      "projectSettings"
      = some (.settings ⟨"", "uuid-0001", ⟨"fx-solution-azure", "1.0.0"⟩⟩) ∧
    lookupField (newSolutionContext "uuid-0002" toolsTest inputsP).1
      "projectSettings"
      = some (.settings ⟨"", "uuid-0002", ⟨"fx-solution-azure", "1.0.0"⟩⟩) ∧
    (⟨"", "uuid-0001", ⟨"fx-solution-azure", "1.0.0"⟩⟩ : ProjectSettings).projectId
      ≠ (⟨"", "uuid-0002", ⟨"fx-solution-azure", "1.0.0"⟩⟩ : ProjectSettings).projectId ∧
    (⟨"", "uuid-0001", ⟨"fx-solution-azure", "1.0.0"⟩⟩ : ProjectSettings).solutionSettings
      = (⟨"", "uuid-0002", ⟨"fx-solution-azure", "1.0.0"⟩⟩ : ProjectSettings).solutionSettings ∧
    lookupField (newSolutionContext "uuid-0001" toolsTest inputsP).1 "config"
      = some (.configMap []) ∧
    lookupField (newSolutionContext "uuid-0002" toolsTest inputsP).1 "config"
      = some (.configMap []) ∧
    lookupField (newSolutionContext "uuid-0001" toolsTest inputsP).1
      "cryptoProvider" = some (.crypto ⟨"uuid-0001"⟩) ∧
    lookupField (newSolutionContext "uuid-0002" toolsTest inputsP).1
      "cryptoProvider" = some (.crypto ⟨"uuid-0002"⟩) ∧
    (newSolutionContext "uuid-0001" toolsTest inputsP).2 = [] ∧
    (newSolutionContext "uuid-0002" toolsTest inputsP).2 = [] :=
  C9_idempotent_synthesis "uuid-0001" "uuid-0002" toolsTest toolsTest inputsP
    inputsP (by decide) (by decide) (by decide) (by decide) (by decide)

/-- C10: for a legacy project (identity-missing flag set), the
assembled context still carries the real `LocalCrypto` keyed by the
project settings' id — the binding comes after every spread, so nothing
overwrites it — while every load call issued received the absent
provider. -/
theorem C10_legacy_context_real_crypto (em : EnvironmentManager)
    (tr : TraverseFn) (ps : ProjectSettings) (tools : Tools) (inputs : Inputs)
    (sc : JSObject)
    (hok : (loadSolutionContext em tr ⟨some ps, true⟩ tools inputs).result
        = .ok sc) :
    lookupField sc "cryptoProvider" = some (.crypto ⟨ps.projectId⟩) ∧
    ∀ pp en c, RegistryCall.loadCall pp en c ∈
        (loadSolutionContext em tr ⟨some ps, true⟩ tools inputs).calls →
      c = none := by
  constructor
  · obtain ⟨tn, envInfo, hload, hsc, hcalls⟩ :=
      loadSolutionContext_result_ok_char em tr ps true tools inputs sc hok
    rw [hsc]
    exact lookupField_entries_crypto _ _ _ _ _ _
  · intro pp en c hmem
    have h :=
      (loadSolutionContext_loadCall_char em tr ps true tools inputs pp en c hmem).1
    simpa using h

/-- C10 (witness): the legacy resolution at a concrete input. -/
theorem C10_legacy_context_real_crypto_witness :
    lookupField (solutionContextEntries psTest ⟨"default", [("k", "v")]⟩ "p"
      toolsTest inputsP ⟨"pid-123"⟩) "cryptoProvider"
      = some (.crypto ⟨"pid-123"⟩) ∧
    (RegistryCall.loadCall "p" "default" none ∈
        (loadSolutionContext emTest trOk ⟨some psTest, true⟩ toolsTest
          inputsP).calls →
      (none : Option LocalCrypto) = none) :=
  ⟨(C10_legacy_context_real_crypto emTest trOk psTest toolsTest inputsP
      (solutionContextEntries psTest ⟨"default", [("k", "v")]⟩ "p" toolsTest
        inputsP ⟨"pid-123"⟩) rfl).1,
   (C10_legacy_context_real_crypto emTest trOk psTest toolsTest inputsP
      (solutionContextEntries psTest ⟨"default", [("k", "v")]⟩ "p" toolsTest
        inputsP ⟨"pid-123"⟩) rfl).2 "p" "default" none⟩

end EnvLoader
